import Mathlib

/-!
Verification development for a Garman–Kohlhagen FX option pricing library.

The library consists of four pure functions: a year-fraction calculator over
calendar dates, a discount factor, the d1/d2 risk statistics, and an option
pricer combining them with an externally supplied standard normal cumulative
distribution function.

Calendar dates are modelled after the proleptic Gregorian calendar of the host
date type (years 1 to 9999, with ordinal day numbers computed exactly as the
host library does); fallible date construction is modelled with Option, and
the year-fraction result is computed exactly in ℚ.  The pricing functions are
modelled over ℝ, with the cumulative normal distribution passed as an explicit
function parameter, since the library consumes it from an external statistics
package rather than implementing it.
-/

/-- A calendar date: year, month, day. -/
structure Date where
  year : ℕ
  month : ℕ
  day : ℕ
deriving DecidableEq, Repr

/-- Strict lexicographic comparison of dates, as the host date type compares
year, then month, then day. -/
def Date.blt (a b : Date) : Bool :=
  decide (a.year < b.year) ||
    (decide (a.year = b.year) &&
      (decide (a.month < b.month) ||
        (decide (a.month = b.month) && decide (a.day < b.day))))

/-- Non-strict lexicographic comparison of dates. -/
def Date.ble (a b : Date) : Bool :=
  decide (a.year < b.year) ||
    (decide (a.year = b.year) &&
      (decide (a.month < b.month) ||
        (decide (a.month = b.month) && decide (a.day ≤ b.day))))

/-- Gregorian leap-year test, as in the host calendar library. -/
def isLeap (y : ℕ) : Bool :=
  y % 4 == 0 && (y % 100 != 0 || y % 400 == 0)

/-- Number of days in a month of a given year. -/
def daysInMonth (y m : ℕ) : ℕ :=
  if m = 2 then (if isLeap y = true then 29 else 28)
  else if m = 4 ∨ m = 6 ∨ m = 9 ∨ m = 11 then 30
  else 31

/-- Number of days in the given year that precede the first of the given
month (the host library's cumulative table plus a leap adjustment). -/
def daysBeforeMonth (y m : ℕ) : ℕ :=
  (match m with
    | 1 => 0 | 2 => 31 | 3 => 59 | 4 => 90 | 5 => 120 | 6 => 151
    | 7 => 181 | 8 => 212 | 9 => 243 | 10 => 273 | 11 => 304 | _ => 334)
  + (if 2 < m ∧ isLeap y = true then 1 else 0)

/-- Number of days before January 1 of the given year, counting from year 1
(the host library's days-before-year formula). -/
def daysBeforeYear (y : ℕ) : ℕ :=
  365 * (y - 1) + (y - 1) / 4 - (y - 1) / 100 + (y - 1) / 400

/-- Proleptic Gregorian ordinal of a date: day 1 is January 1 of year 1.
Date subtraction in the host library is the difference of ordinals. -/
def toOrdinal (dt : Date) : ℕ :=
  daysBeforeYear dt.year + daysBeforeMonth dt.year dt.month + dt.day

/-- A date the host date type accepts: years 1 to 9999, months 1 to 12, days
within the month. -/
def validDate (dt : Date) : Prop :=
  1 ≤ dt.year ∧ dt.year ≤ 9999 ∧ 1 ≤ dt.month ∧ dt.month ≤ 12 ∧
    1 ≤ dt.day ∧ dt.day ≤ daysInMonth dt.year dt.month

instance validDate.instDecidable (dt : Date) : Decidable (validDate dt) := by
  unfold validDate
  infer_instance

/-- Date construction: returns the date when the components are valid, and
none where the host constructor raises. -/
def mkDate? (y m d : ℕ) : Option Date :=
  if 1 ≤ y ∧ y ≤ 9999 ∧ 1 ≤ m ∧ m ≤ 12 ∧ 1 ≤ d ∧ d ≤ daysInMonth y m then
    some ⟨y, m, d⟩
  else none

/-- The whole-year loop of years_apart.  date1 is the cursor, ny the cursor
advanced by one calendar year.  While ny ≤ date2, the cursor moves to ny, the
year counter increments, and ny advances again (a fallible construction: none
models a raised error).  The fuel argument bounds the recursion; the caller
supplies one more than the year distance, which the loop never exhausts
because each step raises the cursor year by exactly one. -/
def yearsApartLoop (date2 : Date) (fuel : ℕ) (date1 ny : Date) (num : ℕ) :
    Option (ℕ × Date) :=
  match fuel with
  | 0 => if Date.ble ny date2 then none else some (num, date1)
  | f + 1 =>
    if Date.ble ny date2 then
      match mkDate? (ny.year + 1) ny.month ny.day with
      | some ny2 => yearsApartLoop date2 f ny ny2 (num + 1)
      | none => none
    else some (num, date1)

/-- The discrete core of years_apart: swap so the earlier date is first, run
the whole-year loop, and return the whole-year count together with the
remaining day count (the ordinal difference from the final cursor to the
later date, a signed day count as the host date subtraction produces). -/
def yearsApartParts (date1 date2 : Date) : Option (ℕ × ℤ) :=
  let a := if Date.blt date2 date1 then date2 else date1
  let b := if Date.blt date2 date1 then date1 else date2
  match mkDate? (a.year + 1) a.month a.day with
  | none => none
  | some ny =>
    match yearsApartLoop b (b.year + 1 - a.year) a ny 0 with
    | none => none
    | some (num, cursor) =>
      some (num, (toOrdinal b : ℤ) - (toOrdinal cursor : ℤ))

/-- Fractional difference in years between two dates: the whole calendar-year
count plus the remaining day count divided by 365.  none models the error
raised when a year+1 date construction fails. -/
def years_apart (date1 date2 : Date) : Option ℚ :=
  (yearsApartParts date1 date2).map fun p => (p.1 : ℚ) + (p.2 : ℚ) / 365

/-- Discount factor for a simple interest rate and a term in years. -/
noncomputable def discount (rate term : ℝ) : ℝ :=
  Real.exp (-rate * term)

/-- The d1 statistic of the Garman–Kohlhagen formula. -/
noncomputable def fx_option_d1
    (strike term spot volatility domestic_rate foreign_rate : ℝ) : ℝ :=
  (Real.log (spot / strike) +
      (domestic_rate - foreign_rate + volatility ^ 2 / 2) * term) /
    (volatility * Real.sqrt term)

/-- The d2 statistic of the Garman–Kohlhagen formula, from a precomputed d1. -/
noncomputable def fx_option_d2 (term volatility d1 : ℝ) : ℝ :=
  d1 - volatility * Real.sqrt term

/-- Fair price of a European FX option.  Φ is the standard normal cumulative
distribution function, consumed from an external statistics library.  The
result is none exactly when the year-fraction computation fails. -/
noncomputable def fx_option_price (Φ : ℝ → ℝ) (call : Bool) (strike : ℝ)
    (expiration spot_date : Date)
    (spot volatility domestic_rate foreign_rate : ℝ) : Option ℝ :=
  (years_apart spot_date expiration).map fun tq =>
    let t : ℝ := (tq : ℝ)
    let d1 := fx_option_d1 strike t spot volatility domestic_rate foreign_rate
    let d2 := fx_option_d2 t volatility d1
    let disc_spot := spot * discount foreign_rate t
    let disc_strike := strike * discount domestic_rate t
    if call then disc_spot * Φ d1 - disc_strike * Φ d2
    else disc_strike * Φ (-d2) - disc_spot * Φ (-d1)

lemma Date.blt_iff (a b : Date) : Date.blt a b = true ↔
    (a.year < b.year ∨ (a.year = b.year ∧
      (a.month < b.month ∨ (a.month = b.month ∧ a.day < b.day)))) := by
  simp [Date.blt]

lemma Date.ble_iff (a b : Date) : Date.ble a b = true ↔
    (a.year < b.year ∨ (a.year = b.year ∧
      (a.month < b.month ∨ (a.month = b.month ∧ a.day ≤ b.day)))) := by
  simp [Date.ble]

lemma Date.blt_eq_false_iff (a b : Date) : Date.blt a b = false ↔
    ¬ (a.year < b.year ∨ (a.year = b.year ∧
      (a.month < b.month ∨ (a.month = b.month ∧ a.day < b.day)))) := by
  rw [← Date.blt_iff]
  cases Date.blt a b <;> simp

lemma Date.ble_eq_false_iff (a b : Date) : Date.ble a b = false ↔
    ¬ (a.year < b.year ∨ (a.year = b.year ∧
      (a.month < b.month ∨ (a.month = b.month ∧ a.day ≤ b.day)))) := by
  rw [← Date.ble_iff]
  cases Date.ble a b <;> simp

lemma Date.blt_asymm {a b : Date} (h : Date.blt a b = true) :
    Date.blt b a = false := by
  rw [Date.blt_iff] at h
  rw [Date.blt_eq_false_iff]
  omega

lemma Date.blt_antisymm {a b : Date} (h1 : Date.blt a b = false)
    (h2 : Date.blt b a = false) : a = b := by
  obtain ⟨y1, m1, dd1⟩ := a
  obtain ⟨y2, m2, dd2⟩ := b
  rw [Date.blt_eq_false_iff] at h1 h2
  simp only [Date.mk.injEq]
  simp only at h1 h2
  omega

lemma isLeap_iff (y : ℕ) : isLeap y = true ↔
    (y % 4 = 0 ∧ (y % 100 ≠ 0 ∨ y % 400 = 0)) := by
  simp [isLeap]

lemma isLeap_false_iff (y : ℕ) : isLeap y = false ↔
    ¬ (y % 4 = 0 ∧ (y % 100 ≠ 0 ∨ y % 400 = 0)) := by
  rw [← isLeap_iff]
  cases isLeap y <;> simp

lemma daysBeforeYear_succ_ge (y : ℕ) (hy : 1 ≤ y) :
    daysBeforeYear y + 365 + (if isLeap y = true then 1 else 0) ≤
      daysBeforeYear (y + 1) := by
  unfold daysBeforeYear
  simp only [Nat.add_sub_cancel]
  have e4 : y % 4 = 0 → y / 4 = (y - 1) / 4 + 1 := by omega
  have e4n : y % 4 ≠ 0 → y / 4 = (y - 1) / 4 := by omega
  have e100 : y % 100 = 0 → y / 100 = (y - 1) / 100 + 1 := by omega
  have e100n : y % 100 ≠ 0 → y / 100 = (y - 1) / 100 := by omega
  have e400 : y % 400 = 0 → y / 400 = (y - 1) / 400 + 1 := by omega
  have e400n : y % 400 ≠ 0 → y / 400 = (y - 1) / 400 := by omega
  have hd1 : y % 400 = 0 → y % 100 = 0 := by omega
  have hd2 : y % 100 = 0 → y % 4 = 0 := by omega
  rcases Bool.eq_false_or_eq_true (isLeap y) with hl | hl
  · have hc := (isLeap_iff y).mp hl
    simp only [hl, if_true]
    omega
  · have hc := (isLeap_false_iff y).mp hl
    simp [hl]
    omega

lemma daysBeforeYear_mono {y1 y2 : ℕ} (h : y1 ≤ y2) :
    daysBeforeYear y1 ≤ daysBeforeYear y2 := by
  unfold daysBeforeYear
  have hk : y1 - 1 ≤ y2 - 1 := by omega
  have h1 : (y1 - 1) / 4 ≤ (y2 - 1) / 4 := Nat.div_le_div_right hk
  have h2 : (y1 - 1) / 400 ≤ (y2 - 1) / 400 := Nat.div_le_div_right hk
  have h3 : (y2 - 1) / 100 - (y1 - 1) / 100 ≤ (y2 - 1) - (y1 - 1) := by omega
  have h4 : (y1 - 1) / 100 ≤ y1 - 1 := Nat.div_le_self _ _
  omega

lemma daysBeforeMonth_diff (y1 y2 m : ℕ) :
    daysBeforeMonth y1 m ≤ daysBeforeMonth y2 m + 1 := by
  unfold daysBeforeMonth
  split_ifs <;> omega

lemma daysBeforeMonth_day_le (y m d : ℕ) (h1 : 1 ≤ m) (h2 : m ≤ 12)
    (hd : d ≤ daysInMonth y m) :
    daysBeforeMonth y m + d ≤ 365 + (if isLeap y = true then 1 else 0) := by
  by_cases hl : isLeap y = true <;>
    interval_cases m <;>
      simp [daysBeforeMonth, daysInMonth, hl] at hd ⊢ <;> omega

lemma daysBeforeMonth_lt_mono (y : ℕ) {m1 m2 : ℕ} (h1 : 1 ≤ m1)
    (hlt : m1 < m2) (h2 : m2 ≤ 12) {d : ℕ} (hd : d ≤ daysInMonth y m1) :
    daysBeforeMonth y m1 + d ≤ daysBeforeMonth y m2 := by
  have h11 : m1 ≤ 11 := by omega
  by_cases hl : isLeap y = true <;>
    interval_cases m1 <;> interval_cases m2 <;>
      simp [daysBeforeMonth, daysInMonth, hl] at hd ⊢ <;> omega

lemma toOrdinal_mono {a b : Date} (hva : validDate a) (hvb : validDate b)
    (hle : Date.ble a b = true) : toOrdinal a ≤ toOrdinal b := by
  obtain ⟨ha1, ha2, ha3, ha4, ha5, ha6⟩ := hva
  obtain ⟨hb1, hb2, hb3, hb4, hb5, hb6⟩ := hvb
  rw [Date.ble_iff] at hle
  unfold toOrdinal
  rcases hle with hy | ⟨hy, hm | ⟨hm, hd⟩⟩
  · have h1 := daysBeforeMonth_day_le a.year a.month a.day ha3 ha4 ha6
    have h2 := daysBeforeYear_succ_ge a.year ha1
    have h3 := daysBeforeYear_mono (show a.year + 1 ≤ b.year from hy)
    omega
  · have h1 := daysBeforeMonth_lt_mono a.year ha3 hm hb4 ha6
    rw [hy] at h1 ⊢
    omega
  · rw [hy, hm]
    omega

lemma daysInMonth_stable {y y' m d : ℕ} (hfeb : ¬(m = 2 ∧ d = 29))
    (hd : d ≤ daysInMonth y m) : d ≤ daysInMonth y' m := by
  by_cases hm : m = 2
  · subst hm
    have h29 : d ≠ 29 := fun h => hfeb ⟨rfl, h⟩
    by_cases hl : isLeap y = true <;> by_cases hl' : isLeap y' = true <;>
      simp [daysInMonth, hl, hl'] at hd ⊢ <;> omega
  · simpa [daysInMonth, hm] using hd

lemma mkDate?_eq_some {y m d : ℕ} (h1 : 1 ≤ y) (h2 : y ≤ 9999) (h3 : 1 ≤ m)
    (h4 : m ≤ 12) (h5 : 1 ≤ d) (h6 : d ≤ daysInMonth y m) :
    mkDate? y m d = some ⟨y, m, d⟩ := by
  unfold mkDate?
  rw [if_pos]
  exact ⟨h1, h2, h3, h4, h5, h6⟩

lemma yearsApartParts_sorted (a b : Date) (h : Date.blt b a = false) :
    yearsApartParts a b =
      match mkDate? (a.year + 1) a.month a.day with
      | none => none
      | some ny =>
        match yearsApartLoop b (b.year + 1 - a.year) a ny 0 with
        | none => none
        | some (num, cursor) =>
          some (num, (toOrdinal b : ℤ) - (toOrdinal cursor : ℤ)) := by
  unfold yearsApartParts
  simp only [h, Bool.false_eq_true, if_false]

lemma yearsApartLoop_exact (m d : ℕ) (hm1 : 1 ≤ m) (hm2 : m ≤ 12) (hd1 : 1 ≤ d)
    (hdall : ∀ y', d ≤ daysInMonth y' m) :
    ∀ j fuel yk num, j ≤ fuel → 1 ≤ yk → yk + j ≤ 9998 →
      yearsApartLoop ⟨yk + j, m, d⟩ fuel ⟨yk, m, d⟩ ⟨yk + 1, m, d⟩ num =
        some (num + j, ⟨yk + j, m, d⟩) := by
  intro j
  induction j with
  | zero =>
    intro fuel yk num hjf hy1 hmax
    have hble : Date.ble ⟨yk + 1, m, d⟩ ⟨yk, m, d⟩ = false := by
      rw [Date.ble_eq_false_iff]
      dsimp only
      omega
    cases fuel with
    | zero => simp [yearsApartLoop, hble]
    | succ f => simp [yearsApartLoop, hble]
  | succ j ih =>
    intro fuel yk num hjf hy1 hmax
    obtain ⟨f, rfl⟩ : ∃ f, fuel = f + 1 := ⟨fuel - 1, by omega⟩
    have hble : Date.ble ⟨yk + 1, m, d⟩ ⟨yk + (j + 1), m, d⟩ = true := by
      rw [Date.ble_iff]
      dsimp only
      omega
    have hmk : mkDate? (yk + 1 + 1) m d = some ⟨yk + 1 + 1, m, d⟩ :=
      mkDate?_eq_some (by omega) (by omega) hm1 hm2 hd1 (hdall _)
    have hgoal := ih f (yk + 1) (num + 1) (by omega) (by omega) (by omega)
    have e1 : yk + 1 + j = yk + (j + 1) := by omega
    have e2 : num + 1 + j = num + (j + 1) := by omega
    rw [e1, e2] at hgoal
    simp only [yearsApartLoop, hble, if_true]
    rw [hmk]
    exact hgoal

lemma yearsApartLoop_total (b : Date) (m d : ℕ) (hm1 : 1 ≤ m) (hm2 : m ≤ 12)
    (hd1 : 1 ≤ d) (hdall : ∀ y', d ≤ daysInMonth y' m) (hby : b.year ≤ 9998) :
    ∀ fuel yk num, 1 ≤ yk → b.year + 1 ≤ yk + 1 + fuel →
      ∃ r c, yearsApartLoop b fuel ⟨yk, m, d⟩ ⟨yk + 1, m, d⟩ num = some (r, c) := by
  intro fuel
  induction fuel with
  | zero =>
    intro yk num h1 h2
    have hble : Date.ble ⟨yk + 1, m, d⟩ b = false := by
      rw [Date.ble_eq_false_iff]
      dsimp only
      omega
    exact ⟨num, ⟨yk, m, d⟩, by simp [yearsApartLoop, hble]⟩
  | succ f ih =>
    intro yk num h1 h2
    rcases Bool.eq_false_or_eq_true (Date.ble ⟨yk + 1, m, d⟩ b) with hble | hble
    · have hyk : yk + 1 ≤ b.year := by
        rw [Date.ble_iff] at hble
        dsimp only at hble
        omega
      have hmk : mkDate? (yk + 1 + 1) m d = some ⟨yk + 1 + 1, m, d⟩ :=
        mkDate?_eq_some (by omega) (by omega) hm1 hm2 hd1 (hdall _)
      obtain ⟨r, c, hrc⟩ := ih (yk + 1) (num + 1) (by omega) (by omega)
      refine ⟨r, c, ?_⟩
      simp only [yearsApartLoop, hble, if_true]
      rw [hmk]
      exact hrc
    · exact ⟨num, ⟨yk, m, d⟩, by simp [yearsApartLoop, hble]⟩

/-- C4 (amended): for a valid date D whose month and day are not February 29
and any N with D.year + N ≤ 9998, years_apart applied to D and the date
exactly N calendar years after D returns exactly N, with no fractional
drift.  (The claim fails as stated for February 29 start dates, and for
dates so late that the year+1 construction overflows the calendar; see the
counterexample.) -/
theorem years_apart_exact_calendar_years (y m d N : ℕ)
    (hv : validDate ⟨y, m, d⟩) (hfeb : ¬(m = 2 ∧ d = 29))
    (hmax : y + N ≤ 9998) :
    years_apart ⟨y, m, d⟩ ⟨y + N, m, d⟩ = some (N : ℚ) := by
  obtain ⟨h1, h2, h3, h4, h5, h6⟩ := hv
  dsimp only at h1 h2 h3 h4 h5 h6
  have hdall : ∀ y', d ≤ daysInMonth y' m := fun y' => daysInMonth_stable hfeb h6
  have hblt : Date.blt ⟨y + N, m, d⟩ ⟨y, m, d⟩ = false := by
    rw [Date.blt_eq_false_iff]
    dsimp only
    omega
  have hmk : mkDate? (y + 1) m d = some ⟨y + 1, m, d⟩ :=
    mkDate?_eq_some (by omega) (by omega) h3 h4 h5 (hdall _)
  have hloop := yearsApartLoop_exact m d h3 h4 h5 hdall N (N + 1) y 0
    (by omega) h1 hmax
  have hfuel : y + N + 1 - y = N + 1 := by omega
  have hparts : yearsApartParts ⟨y, m, d⟩ ⟨y + N, m, d⟩ = some (N, 0) := by
    rw [yearsApartParts_sorted _ _ hblt]
    dsimp only
    rw [hmk, hfuel]
    dsimp only
    rw [hloop]
    simp
  unfold years_apart
  rw [hparts]
  simp

/-- Witness for C4's amended theorem at a concrete input. -/
theorem years_apart_exact_calendar_years_witness :
    years_apart ⟨2019, 4, 1⟩ ⟨2019 + 3, 4, 1⟩ = some ((3 : ℕ) : ℚ) :=
  years_apart_exact_calendar_years 2019 4 1 3 (by decide) (by decide)
    (by norm_num)

/-- Counterexample to C4 as stated: 2004-02-29 is a valid calendar date and
2008-02-29 is exactly 4 calendar years later, but years_apart errors out
(the year+1 cursor date 2005-02-29 does not exist) instead of returning 4. -/
theorem years_apart_not_exact_on_feb29 :
    ¬ years_apart ⟨2004, 2, 29⟩ ⟨2008, 2, 29⟩ = some ((4 : ℕ) : ℚ) := by
  have h : yearsApartParts ⟨2004, 2, 29⟩ ⟨2008, 2, 29⟩ = none := by decide
  intro hc
  unfold years_apart at hc
  rw [h] at hc
  simp at hc

/-- C5 (amended): years_apart returns a value on every pair of valid dates
with years at most 9998 whose earlier date (the post-swap minimum, the only
date whose month and day feed the year+1 constructions) is not a
February 29.  The later date may be a February 29.  (As stated — for all
valid date pairs, February 29 included — the claim fails; see the
counterexample, where the code raises a date-construction error, a third
error class beyond the two the spec lists.) -/
theorem years_apart_total_away_from_feb29 (a b : Date)
    (hva : validDate a) (hvb : validDate b)
    (hfeb : ¬((if Date.blt b a then b else a).month = 2 ∧
        (if Date.blt b a then b else a).day = 29))
    (hya : a.year ≤ 9998) (hyb : b.year ≤ 9998) :
    ∃ q, years_apart a b = some q := by
  obtain ⟨y1, m1, dd1⟩ := a
  obtain ⟨y2, m2, dd2⟩ := b
  obtain ⟨ha1, ha2, ha3, ha4, ha5, ha6⟩ := hva
  obtain ⟨hb1, hb2, hb3, hb4, hb5, hb6⟩ := hvb
  dsimp only at ha1 ha2 ha3 ha4 ha5 ha6 hb1 hb2 hb3 hb4 hb5 hb6 hya hyb
  suffices h : ∃ p, yearsApartParts ⟨y1, m1, dd1⟩ ⟨y2, m2, dd2⟩ = some p by
    obtain ⟨p, hp⟩ := h
    refine ⟨(p.1 : ℚ) + (p.2 : ℚ) / 365, ?_⟩
    unfold years_apart
    rw [hp]
    rfl
  rcases Bool.eq_false_or_eq_true (Date.blt ⟨y2, m2, dd2⟩ ⟨y1, m1, dd1⟩)
    with hswap | hswap
  · -- the second date is lexicographically smaller: it becomes the cursor
    have hfb : ¬(m2 = 2 ∧ dd2 = 29) := fun hc => hfeb (by
      rw [if_pos hswap]
      exact hc)
    have hdall : ∀ y', dd2 ≤ daysInMonth y' m2 :=
      fun y' => daysInMonth_stable hfb hb6
    have hmk : mkDate? (y2 + 1) m2 dd2 = some ⟨y2 + 1, m2, dd2⟩ :=
      mkDate?_eq_some (by omega) (by omega) hb3 hb4 hb5 (hdall _)
    obtain ⟨r, c, hrc⟩ := yearsApartLoop_total ⟨y1, m1, dd1⟩ m2 dd2 hb3 hb4 hb5
      hdall hya (y1 + 1 - y2) y2 0 hb1
      (show y2 + 1 + (y1 + 1 - y2) ≥ y1 + 1 by omega)
    refine ⟨(r, (toOrdinal ⟨y1, m1, dd1⟩ : ℤ) - (toOrdinal c : ℤ)), ?_⟩
    unfold yearsApartParts
    simp only [hswap, if_true]
    rw [hmk]
    dsimp only
    rw [hrc]
  · -- no swap: the first date is the cursor
    have hfa : ¬(m1 = 2 ∧ dd1 = 29) := fun hc => hfeb (by
      rw [if_neg (by simp [hswap])]
      exact hc)
    have hdall : ∀ y', dd1 ≤ daysInMonth y' m1 :=
      fun y' => daysInMonth_stable hfa ha6
    have hmk : mkDate? (y1 + 1) m1 dd1 = some ⟨y1 + 1, m1, dd1⟩ :=
      mkDate?_eq_some (by omega) (by omega) ha3 ha4 ha5 (hdall _)
    obtain ⟨r, c, hrc⟩ := yearsApartLoop_total ⟨y2, m2, dd2⟩ m1 dd1 ha3 ha4 ha5
      hdall hyb (y2 + 1 - y1) y1 0 ha1
      (show y1 + 1 + (y2 + 1 - y1) ≥ y2 + 1 by omega)
    refine ⟨(r, (toOrdinal ⟨y2, m2, dd2⟩ : ℤ) - (toOrdinal c : ℤ)), ?_⟩
    unfold yearsApartParts
    simp only [hswap, Bool.false_eq_true, if_false]
    rw [hmk]
    dsimp only
    rw [hrc]

/-- Witness for C5's amended theorem at a concrete input whose later date
is a February 29: only the earlier date's month and day matter. -/
theorem years_apart_total_away_from_feb29_witness :
    ∃ q, years_apart ⟨2003, 3, 1⟩ ⟨2004, 2, 29⟩ = some q :=
  years_apart_total_away_from_feb29 ⟨2003, 3, 1⟩ ⟨2004, 2, 29⟩ (by decide)
    (by decide) (by decide) (by norm_num) (by norm_num)

/-- Corroboration of the amended C5 boundary: when only the later date is a
February 29 the code returns a value — 2003-03-01 to 2004-02-29 is 0 whole
calendar years plus 365 remaining days over 365, exactly 1. -/
theorem years_apart_later_feb29_returns :
    years_apart ⟨2003, 3, 1⟩ ⟨2004, 2, 29⟩ = some 1 := by
  have h : yearsApartParts ⟨2003, 3, 1⟩ ⟨2004, 2, 29⟩ = some (0, 365) := by
    decide
  unfold years_apart
  rw [h]
  norm_num

/-- Counterexample to C5 as stated: 2000-02-29 and 2001-03-01 are both
valid calendar dates, yet years_apart raises a date-construction error
(modelled as none) rather than returning a value. -/
theorem years_apart_none_on_feb29 :
    years_apart ⟨2000, 2, 29⟩ ⟨2001, 3, 1⟩ = none := by
  have h : yearsApartParts ⟨2000, 2, 29⟩ ⟨2001, 3, 1⟩ = none := by decide
  unfold years_apart
  rw [h]
  rfl

/-- C6: years_apart is symmetric in its two date arguments: the arguments
are swapped internally so the earlier date comes first. -/
theorem years_apart_symm (a b : Date) : years_apart a b = years_apart b a := by
  have hp : yearsApartParts a b = yearsApartParts b a := by
    rcases Bool.eq_false_or_eq_true (Date.blt b a) with h1 | h1 <;>
      rcases Bool.eq_false_or_eq_true (Date.blt a b) with h2 | h2
    · have h3 := Date.blt_asymm h1
      rw [h3] at h2
      exact absurd h2 (by simp)
    · simp [yearsApartParts, h1, h2]
    · simp [yearsApartParts, h1, h2]
    · rw [Date.blt_antisymm h2 h1]
  unfold years_apart
  rw [hp]

/-- C7: the final partial year is divided by exactly 365 even when it spans
a leap day: from 2004-01-01 (a leap year) to 2005-01-02, years_apart counts
one whole calendar year plus one remaining day over 365, returning exactly
1 + 1/365. -/
theorem years_apart_final_partial_year_365 :
    years_apart ⟨2004, 1, 1⟩ ⟨2005, 1, 2⟩ = some (1 + 1/365) := by
  have h : yearsApartParts ⟨2004, 1, 1⟩ ⟨2005, 1, 2⟩ = some (1, 1) := by decide
  unfold years_apart
  rw [h]
  norm_num

/-- C10: one iteration of the whole-year loop moves the cursor c to the
date n one calendar year later, strictly increasing its ordinal; while the
advanced date stays at or before the later date b, the day distance from
the cursor to b strictly decreases, so the loop terminates by well-founded
recursion on that distance. -/
theorem years_apart_loop_measure_decreases (b c n : Date)
    (hvb : validDate b) (hvc : validDate c) (hvn : validDate n)
    (hy : n.year = c.year + 1) (hm : n.month = c.month) (hd : n.day = c.day)
    (hle : Date.ble n b = true) :
    toOrdinal c < toOrdinal n ∧
      toOrdinal b - toOrdinal n < toOrdinal b - toOrdinal c := by
  have h1 : toOrdinal n ≤ toOrdinal b := toOrdinal_mono hvn hvb hle
  have h2 : toOrdinal c < toOrdinal n := by
    have h3 := daysBeforeYear_succ_ge c.year hvc.1
    have h4 := daysBeforeMonth_diff c.year (c.year + 1) c.month
    unfold toOrdinal
    rw [hy, hm, hd]
    omega
  exact ⟨h2, by omega⟩

/-- Witness for C10's theorem at a concrete loop configuration. -/
theorem years_apart_loop_measure_decreases_witness :
    toOrdinal ⟨2018, 4, 1⟩ < toOrdinal ⟨2019, 4, 1⟩ ∧
      toOrdinal ⟨2019, 7, 1⟩ - toOrdinal ⟨2019, 4, 1⟩ <
        toOrdinal ⟨2019, 7, 1⟩ - toOrdinal ⟨2018, 4, 1⟩ :=
  years_apart_loop_measure_decreases ⟨2019, 7, 1⟩ ⟨2018, 4, 1⟩ ⟨2019, 4, 1⟩
    (by decide) (by decide) (by decide) rfl rfl rfl (by decide)

/-- Doctest reproduction: one exact calendar year is exactly 1.0. -/
theorem years_apart_doctest_one_year :
    years_apart ⟨1959, 5, 3⟩ ⟨1960, 5, 3⟩ = some 1 := by
  have h : yearsApartParts ⟨1959, 5, 3⟩ ⟨1960, 5, 3⟩ = some (1, 0) := by decide
  unfold years_apart
  rw [h]
  norm_num

/-- Doctest reproduction: 1959-05-01 to 2019-06-02 is 60 whole years plus
32 remaining days over 365. -/
theorem years_apart_doctest_sixty_years :
    years_apart ⟨1959, 5, 1⟩ ⟨2019, 6, 2⟩ = some (60 + 32/365) := by
  have h : yearsApartParts ⟨1959, 5, 1⟩ ⟨2019, 6, 2⟩ = some (60, 32) := by
    decide
  unfold years_apart
  rw [h]
  norm_num

/-- Doctest reproduction: a reversed argument order is accepted, giving the
91 days from 2019-04-01 to 2019-07-01 over 365. -/
theorem years_apart_doctest_reversed :
    years_apart ⟨2019, 7, 1⟩ ⟨2019, 4, 1⟩ = some (91/365) := by
  have h : yearsApartParts ⟨2019, 7, 1⟩ ⟨2019, 4, 1⟩ = some (0, 91) := by
    decide
  unfold years_apart
  rw [h]
  norm_num

/-- C1: for every input, fx_option_price is exactly the composition the spec
prescribes: t from the year-fraction calculator, d1 and d2 from the
statistics component, the spot discounted at the foreign rate and the strike
at the domestic rate, combined through Φ according to the call/put branch. -/
theorem fx_option_price_eq_spec_composition (Φ : ℝ → ℝ) (call : Bool)
    (strike spot volatility domestic_rate foreign_rate : ℝ)
    (expiration spot_date : Date) :
    fx_option_price Φ call strike expiration spot_date spot volatility
        domestic_rate foreign_rate =
      (years_apart spot_date expiration).map fun tq =>
        if call then
          spot * discount foreign_rate (tq : ℝ) *
              Φ (fx_option_d1 strike (tq : ℝ) spot volatility domestic_rate
                  foreign_rate) -
            strike * discount domestic_rate (tq : ℝ) *
              Φ (fx_option_d2 (tq : ℝ) volatility
                  (fx_option_d1 strike (tq : ℝ) spot volatility domestic_rate
                    foreign_rate))
        else
          strike * discount domestic_rate (tq : ℝ) *
              Φ (-fx_option_d2 (tq : ℝ) volatility
                  (fx_option_d1 strike (tq : ℝ) spot volatility domestic_rate
                    foreign_rate)) -
            spot * discount foreign_rate (tq : ℝ) *
              Φ (-fx_option_d1 strike (tq : ℝ) spot volatility domestic_rate
                  foreign_rate) :=
  rfl

/-- C2: put–call parity.  When the year fraction is defined and Φ satisfies
the reflection identity of the standard normal cumulative distribution
function, the call price minus the put price equals the discounted spot
minus the discounted strike, exactly in real arithmetic. -/
theorem fx_option_price_put_call_parity (Φ : ℝ → ℝ)
    (strike spot volatility domestic_rate foreign_rate : ℝ)
    (expiration spot_date : Date) (tq : ℚ)
    (hΦ : ∀ x, Φ x + Φ (-x) = 1)
    (hs : 0 < spot) (hk : 0 < strike) (hv : 0 < volatility)
    (hlt : Date.blt spot_date expiration = true)
    (h : years_apart spot_date expiration = some tq) :
    ∃ c p,
      fx_option_price Φ true strike expiration spot_date spot volatility
          domestic_rate foreign_rate = some c ∧
      fx_option_price Φ false strike expiration spot_date spot volatility
          domestic_rate foreign_rate = some p ∧
      c - p = spot * discount foreign_rate (tq : ℝ) -
        strike * discount domestic_rate (tq : ℝ) := by
  refine ⟨spot * discount foreign_rate (tq : ℝ) *
      Φ (fx_option_d1 strike (tq : ℝ) spot volatility domestic_rate
        foreign_rate) -
      strike * discount domestic_rate (tq : ℝ) *
      Φ (fx_option_d2 (tq : ℝ) volatility
        (fx_option_d1 strike (tq : ℝ) spot volatility domestic_rate
          foreign_rate)),
    strike * discount domestic_rate (tq : ℝ) *
      Φ (-fx_option_d2 (tq : ℝ) volatility
        (fx_option_d1 strike (tq : ℝ) spot volatility domestic_rate
          foreign_rate)) -
      spot * discount foreign_rate (tq : ℝ) *
      Φ (-fx_option_d1 strike (tq : ℝ) spot volatility domestic_rate
        foreign_rate),
    ?_, ?_, ?_⟩
  · unfold fx_option_price
    rw [h]
    rfl
  · unfold fx_option_price
    rw [h]
    rfl
  · have key1 := hΦ (fx_option_d1 strike (tq : ℝ) spot volatility
      domestic_rate foreign_rate)
    have key2 := hΦ (fx_option_d2 (tq : ℝ) volatility
      (fx_option_d1 strike (tq : ℝ) spot volatility domestic_rate
        foreign_rate))
    linear_combination (spot * discount foreign_rate (tq : ℝ)) * key1 -
      (strike * discount domestic_rate (tq : ℝ)) * key2

/-- Witness for C2 at a concrete parameter set (with the constant 1/2 as a
Φ satisfying the reflection identity). -/
theorem fx_option_price_put_call_parity_witness :
    ∃ c p,
      fx_option_price (fun _ => (1 : ℝ) / 2) true 152 ⟨2019, 7, 1⟩
          ⟨2019, 4, 1⟩ 150 (13/100) (3/100) (1/25) = some c ∧
      fx_option_price (fun _ => (1 : ℝ) / 2) false 152 ⟨2019, 7, 1⟩
          ⟨2019, 4, 1⟩ 150 (13/100) (3/100) (1/25) = some p ∧
      c - p = 150 * discount (1/25) ((91/365 : ℚ) : ℝ) -
        152 * discount (3/100) ((91/365 : ℚ) : ℝ) :=
  fx_option_price_put_call_parity (fun _ => (1 : ℝ) / 2) 152 150 (13/100)
    (3/100) (1/25) ⟨2019, 7, 1⟩ ⟨2019, 4, 1⟩ (91/365)
    (fun x => by norm_num) (by norm_num) (by norm_num) (by norm_num)
    (by decide)
    (by
      have h : yearsApartParts ⟨2019, 4, 1⟩ ⟨2019, 7, 1⟩ = some (0, 91) := by
        decide
      unfold years_apart
      rw [h]
      norm_num)

/-- C3: for positive strike, spot, term and volatility, fx_option_d1 returns
exactly the Garman–Kohlhagen d1 formula. -/
theorem fx_option_d1_formula
    (strike term spot volatility domestic_rate foreign_rate : ℝ)
    (hk : 0 < strike) (hs : 0 < spot) (ht : 0 < term) (hv : 0 < volatility) :
    fx_option_d1 strike term spot volatility domestic_rate foreign_rate =
      (Real.log (spot / strike) +
          (domestic_rate - foreign_rate + volatility ^ 2 / 2) * term) /
        (volatility * Real.sqrt term) :=
  rfl

/-- Witness for C3 at a concrete parameter set. -/
theorem fx_option_d1_formula_witness :
    fx_option_d1 152 ((91 : ℝ)/365) 150 (13/100) (3/100) (1/25) =
      (Real.log (150 / 152) +
          ((3 : ℝ)/100 - 1/25 + (13/100) ^ 2 / 2) * ((91 : ℝ)/365)) /
        ((13/100) * Real.sqrt ((91 : ℝ)/365)) :=
  fx_option_d1_formula 152 ((91 : ℝ)/365) 150 (13/100) (3/100) (1/25)
    (by norm_num) (by norm_num) (by norm_num) (by norm_num)

/-- C8: discount is exactly exp(−rate × term) for every real rate and term,
and in particular equals 1 at term 0 for every rate; it is total, with no
failure modes. -/
theorem discount_exp_and_identity :
    (∀ rate term : ℝ, discount rate term = Real.exp (-(rate * term))) ∧
      ∀ rate : ℝ, discount rate 0 = 1 := by
  constructor
  · intro rate term
    unfold discount
    rw [neg_mul]
  · intro rate
    unfold discount
    simp

/-- C9: for positive rate the discount factor is strictly decreasing in the
term, and for negative rate strictly increasing. -/
theorem discount_monotone (rate t1 t2 : ℝ) (h12 : t1 < t2) :
    (0 < rate → discount rate t2 < discount rate t1) ∧
      (rate < 0 → discount rate t1 < discount rate t2) := by
  constructor
  · intro hr
    unfold discount
    apply Real.exp_lt_exp.mpr
    nlinarith
  · intro hr
    unfold discount
    apply Real.exp_lt_exp.mpr
    nlinarith

/-- Witness for C9 at concrete rates and terms. -/
theorem discount_monotone_witness :
    discount 1 1 < discount 1 0 ∧ discount (-1) 0 < discount (-1) 1 :=
  ⟨(discount_monotone 1 0 1 (by norm_num)).1 (by norm_num),
   (discount_monotone (-1) 0 1 (by norm_num)).2 (by norm_num)⟩
